import Mathlib

/-!
Verification development for `lib/portage/package/ebuild/_config/LocationsManager.py`.

The file shallowly embeds the profile-stack resolution of the source file:
`_addProfile` (recursive parent-graph traversal), `load_profiles` (top-level
orchestration and the `ParseError` catch), `_expand_parent_colon`
(colon-reference expansion) and `set_root_override` (sysroot validation).

Paths are modelled as an absolute flag plus a list of components, mirroring
the `pathlib`/`os.path` operations the source uses.  External collaborators
that live outside the embedded file (the two EAPI predicates, the repository
name lookup, the line-list reader, the filesystem) are parameters of the
model, as the specification treats them as interfaces: the filesystem is a
record of query functions, the collaborators a record of pure predicates.
Python recursion depth is modelled with explicit fuel; exhausting it yields
the dedicated `recursionLimit` outcome standing for Python's RecursionError
(the source performs no cycle detection).
-/

set_option autoImplicit false

namespace Portage

/-- A filesystem path: `absolute` says whether it starts at the root, and
`parts` are the path components.  Mirrors `pathlib` paths as the source uses
them. -/
structure PPath where
  absolute : Bool
  parts : List String
deriving DecidableEq

/-- The `pathlib` joinpath operator `/`: an absolute right operand discards
the left operand (the NOTE on line 255 of the source relies on this). -/
def PPath.join (p q : PPath) : PPath :=
  if q.absolute then q else { absolute := p.absolute, parts := p.parts ++ q.parts }

/-- Component-wise initial-segment test: `leadsTo anc child` is true when
`anc` is an initial segment of `child`. -/
def leadsTo : List String → List String → Bool
  | [], _ => true
  | _ :: _, [] => false
  | a :: t1, b :: t2 => a == b && leadsTo t1 t2

/-- Modelled from the spec: the collaborator `is_relative_to(path, other)`
(imported from the surrounding package, not part of the embedded file) is
path-prefix containment — true when `other` is a path-prefix of `path`,
like `pathlib.Path.is_relative_to`. -/
def isRelativeTo (child anc : PPath) : Bool :=
  child.absolute == anc.absolute && leadsTo anc.parts child.parts

/-- One step of `os.path.normpath` over components, with the accumulator in
reverse order.  On absolute paths a leading `..` is dropped, on relative
paths it is kept. -/
def normStep (absolute : Bool) (acc : List String) (comp : String) : List String :=
  if comp == "." || comp == "" then acc
  else if comp == ".." then
    match acc with
    | [] => if absolute then [] else [".."]
    | a :: rest => if a == ".." then comp :: a :: rest else rest
  else comp :: acc

/-- Modelled from the spec: the collaborator `normalize_path` is
`os.path.normpath`-style component normalization. -/
def PPath.normalize (p : PPath) : PPath :=
  { absolute := p.absolute, parts := (p.parts.foldl (normStep p.absolute) []).reverse }

/-- Python `str.startswith(os.sep)`: the first character is a slash. -/
def startsWithSlash (s : String) : Bool :=
  match s.toList with
  | [] => false
  | ch :: _ => ch == '/'

/-- Splits a character list at every slash (the components of a path
string, empties included). -/
def splitSlashes : List Char → List Char → List String
  | [], acc => [String.mk acc.reverse]
  | ch :: rest, acc =>
    if ch == '/' then String.mk acc.reverse :: splitSlashes rest []
    else splitSlashes rest (ch :: acc)

/-- Python `str.strip()`: drops whitespace from both ends. -/
def pyStrip (s : String) : String :=
  String.mk
    (((s.toList.dropWhile Char.isWhitespace).reverse.dropWhile
      Char.isWhitespace).reverse)

/-- Parses a path string into components like the `pathlib` constructor:
a leading slash means absolute; empty and `"."` components are dropped. -/
def parsePath (s : String) : PPath :=
  { absolute := startsWithSlash s
  , parts := (splitSlashes s.toList []).filter (fun comp => comp != "" && comp != ".") }

/-- `pathlib.Path.absolute()`: prepends the working directory to a relative
path and leaves an absolute path unchanged (no normalization). -/
def pyAbsolute (cwd : PPath) (p : PPath) : PPath :=
  if p.absolute then p else { absolute := true, parts := cwd.parts ++ p.parts }

/-- A relative path made of the given components. -/
def relPath (xs : List String) : PPath :=
  { absolute := false, parts := xs }

/-- The filesystem root `/`. -/
def rootPath : PPath :=
  { absolute := true, parts := [] }

/-- Line 242: the `parent` file inside a profile directory. -/
def parentsFileOf (p : PPath) : PPath :=
  p.join (relPath ["parent"])

/-- Line 188: the `eapi` marker file inside a profile directory. -/
def eapiFileOf (p : PPath) : PPath :=
  p.join (relPath ["eapi"])

/-- The layout data attached to a known repository: the declared
`profile-formats` sequence and the `profile_eapi_when_unspecified` default
(lines 89-96 of the source build exactly this pair per repository). -/
structure Layout where
  profileFormats : List String
  defaultEapi : Option String
deriving DecidableEq

/-- The filesystem interface the embedded code queries: symlink resolution,
existence, the trimmed-source `eapi` first line, the `grabfile`d non-empty
lines of `parent` (`none` when the file does not exist), directory listing,
directory test, the post-`ensure_dirs` directory test, and the process
working directory used by `Path.absolute()`. -/
structure Fs where
  realpath : PPath → PPath
  pathExists : PPath → Bool
  eapiLine : PPath → Option String
  parentLines : PPath → Option (List String)
  listdir : PPath → List String
  isDir : PPath → Bool
  ensuredIsDir : PPath → Bool
  cwd : PPath

/-- The external collaborators of the resolver: the EAPI-supported
predicate, the EAPI-allows-directories predicate
(`eapi_allows_directories_on_profile_level_and_repository_level`), and the
repository name lookup (`repositories.get_location_for_name`, `none` for
KeyError). -/
structure Collab where
  eapiIsSupported : String → Bool
  eapiAllowsDirectories : String → Bool
  getLocationForName : String → Option PPath

/-- The `ParseError` values the embedded code can raise, carrying the data
interpolated into the source's messages, plus `recursionLimit` standing for
Python's RecursionError on cyclic parent graphs (fuel exhaustion). -/
inductive PError where
  | unsupportedEapi (eapi : String) (eapiFile : PPath)
  | emptyParentFile (parentsFile : PPath)
  | parentNotFound (parent : String) (parentsFile : PPath)
  | missingParent (parent : PPath) (parentsFile : PPath)
  | recursionLimit
deriving DecidableEq

/-- One resolved profile node: the `_profile_node` namedtuple with its
fields in source order (location, portage1_directories, user_config,
profile_formats, eapi, allow_build_id, show_deprecated_warning).  The
`eapi` is optional because the user override node may carry no explicit
EAPI. -/
structure ProfileNode where
  location : PPath
  portage1Directories : Bool
  userConfig : Bool
  profileFormats : List String
  eapi : Option String
  allowBuildId : Bool
  showDeprecatedWarning : Bool
deriving DecidableEq

/-- The state a `_addProfile` traversal accumulates: the two stacks
`self.profiles` and `self.profiles_complex` (appended in lockstep by lines
272-277), and the legacy-layout advisories emitted by `warnings.warn`
(line 230), each recorded as the profile path with its offending names. -/
structure Resolved where
  profiles : List PPath
  profilesComplex : List ProfileNode
  advisories : List (PPath × List String)
deriving DecidableEq

/-- The empty accumulated state. -/
def Resolved.empty : Resolved :=
  { profiles := [], profilesComplex := [], advisories := [] }

/-- Line 29: `_PORTAGE1_DIRECTORIES`, listed in sorted order so that
filtering it realizes `sorted(frozenset.intersection(...))`. -/
def PORTAGE1_DIRECTORIES : List String :=
  ["package.mask", "package.provided", "package.use", "package.use.force",
   "package.use.mask", "use.force", "use.mask"]

/-- Line 34: `_allow_parent_colon`. -/
def allowParentColonTags : List String :=
  ["portage-2"]

/-- Modelled from the spec: `_portage1_profiles_allow_directories` (defined
in the repository-configuration module outside the embedded file) is the
fixed set of legacy format tags that allow directory-style profile
entries. -/
def portage1AllowDirsTags : List String :=
  ["portage-1-compat", "portage-1"]

/-- Lines 179-180: the known repositories whose location is a path-prefix
of the symlink-resolved profile path, kept in index order. -/
def intersectingRepos (knownRepos : List (PPath × Layout)) (p : PPath) :
    List (PPath × Layout) :=
  knownRepos.filter (fun x => isRelativeTo p x.1)

/-- Lines 184-185: Python `max(..., key=lambda x: len(x[0].parts))` — the
first element attaining the maximal component count. -/
def maxByLoc : List (PPath × Layout) → Option (PPath × Layout)
  | [] => none
  | x :: xs =>
    some (xs.foldl (fun best y =>
      if best.1.parts.length < y.1.parts.length then y else best) x)

/-- The repository a profile path is attributed to: the longest
intersecting known repository, if any. -/
def attributeRepo (knownRepos : List (PPath × Layout)) (p : PPath) :
    Option (PPath × Layout) :=
  maxByLoc (intersectingRepos knownRepos p)

/-- Line 186: the attributed repository's `profile_eapi_when_unspecified`. -/
def defaultEapiOf (att : Option (PPath × Layout)) : Option String :=
  att.bind (fun r => r.2.defaultEapi)

/-- Line 214: `current_formats`, which stays `()` without a repository. -/
def currentFormatsOf (att : Option (PPath × Layout)) : List String :=
  match att with
  | none => []
  | some r => r.2.profileFormats

/-- Lines 172 and 208-209: `allow_directories`, true by default and
re-derived from the EAPI predicate and the format tags when a repository
was matched. -/
def allowDirectoriesOf (c : Collab) (att : Option (PPath × Layout))
    (eapi : String) : Bool :=
  match att with
  | none => true
  | some r =>
    c.eapiAllowsDirectories eapi ||
      r.2.profileFormats.any (fun x => portage1AllowDirsTags.contains x)

/-- Lines 175 and 210-211: `compat_mode`, false without a repository. -/
def compatModeOf (c : Collab) (att : Option (PPath × Layout))
    (eapi : String) : Bool :=
  match att with
  | none => false
  | some r =>
    !(c.eapiAllowsDirectories eapi) && r.2.profileFormats == ["portage-1-compat"]

/-- Lines 173 and 212-213: `allow_parent_colon`, true by default. -/
def allowParentColonOf (att : Option (PPath × Layout)) : Bool :=
  match att with
  | none => true
  | some r => r.2.profileFormats.any (fun x => allowParentColonTags.contains x)

/-- Lines 222-223: `show_deprecated_warning` compares the location tuples
of the previous call's intersecting repositories and the current ones. -/
def showDeprecatedOf (previousRepos inter : List (PPath × Layout)) : Bool :=
  decide (previousRepos.map Prod.fst ≠ inter.map Prod.fst)

/-- Lines 226-228: the legacy directory names found in the directory
listing that exist as actual directories, in sorted order (realized by
filtering the sorted master list). -/
def offendersOf (fs : Fs) (p : PPath) : List String :=
  PORTAGE1_DIRECTORIES.filter
    (fun x => (fs.listdir p).contains x && fs.isDir (p.join (relPath [x])))

/-- Python `x or "0"` on the optional repository default (line 189): `None`
and the empty string both fall back to `"0"`. -/
def pyOr : Option String → String
  | none => "0"
  | some s => if s == "" then "0" else s

/-- Lines 188-205: the EAPI of the current node.  The trimmed first line of
an existing `eapi` file overrides the fallback and is checked for support;
without the file the fallback (repository default, else `"0"`) is used
unchecked. -/
def resolveEapi (c : Collab) (fs : Fs) (currentPath : PPath)
    (repoDefault : Option String) : Except PError String :=
  match fs.eapiLine currentPath with
  | none => Except.ok (pyOr repoDefault)
  | some line =>
    if c.eapiIsSupported (pyStrip line) then Except.ok (pyStrip line)
    else Except.error (PError.unsupportedEapi (pyStrip line)
      (fs.realpath (eapiFileOf currentPath)))

/-- Python `str.find(":")`: the index of the first colon, if any. -/
def findColon (s : String) : Option Nat :=
  s.toList.findIdx? (fun ch => ch == ':')

/-- Python `os.path.join(a, mid, sub)` for a string `sub`: an absolute
`sub` discards the earlier components. -/
def osJoin3 (a : PPath) (mid : String) (sub : String) : PPath :=
  let subP := parsePath sub
  if subP.absolute then subP
  else { absolute := a.absolute, parts := a.parts ++ mid :: subP.parts }

/-- Lines 279-306: `_expand_parent_colon`.  No colon: the reference is
returned as a literal path.  Colon at index 0: anchor at the current
repository, `ParseError` when there is none.  Colon at a positive index:
look the name up, `ParseError` when unknown. -/
def expandParentColon (c : Collab) (parentsFile : PPath) (ref : String)
    (repoLoc : Option PPath) : Except PError PPath :=
  match findColon ref with
  | none => Except.ok (parsePath ref)
  | some 0 =>
    match repoLoc with
    | none => Except.error (PError.parentNotFound ref parentsFile)
    | some loc => Except.ok ((osJoin3 loc "profiles" (ref.drop 1)).normalize)
  | some (k + 1) =>
    match c.getLocationForName (ref.take (k + 1)) with
    | none => Except.error (PError.parentNotFound ref parentsFile)
    | some loc => Except.ok ((osJoin3 loc "profiles" (ref.drop (k + 2))).normalize)

/-- Lines 259-260: the source's re-resolution test
`parentPath.is_absolute() or repo_loc is None or not is_relative_to(repo_loc, parentPath)`
(note the argument order of the last call: it asks whether the joined path
is a path-prefix of the repository location). -/
def reresolveCond (repoLoc : Option PPath) (joined : PPath) : Bool :=
  joined.absolute ||
    match repoLoc with
    | none => true
    | some r => !(isRelativeTo r joined)

/-- Written from the spec's words for the same test: the joined path is
absolute, or no repository was matched, or the matched repository's
location is not a path-prefix of the joined path. -/
def specReresolveCond (repoLoc : Option PPath) (joined : PPath) : Bool :=
  joined.absolute ||
    match repoLoc with
    | none => true
    | some r => !(isRelativeTo joined r)

/-- Lines 248-263: processing of one listed parent reference — optional
colon expansion (skipped for absolute references or when colon syntax is
off), join against the current directory, normalization, and re-resolution
via `Path.absolute()` when `reresolveCond` holds. -/
def resolveParentRef (c : Collab) (cwd : PPath) (currentPath parentsFile : PPath)
    (repoLoc : Option PPath) (allowColon : Bool) (ref : String) :
    Except PError PPath :=
  match (if !(startsWithSlash ref) && allowColon
      then expandParentColon c parentsFile ref repoLoc
      else Except.ok (parsePath ref)) with
  | Except.error e => Except.error e
  | Except.ok pp =>
    let joined := (currentPath.join pp).normalize
    Except.ok (if reresolveCond repoLoc joined then pyAbsolute cwd joined else joined)

/-- Lines 272-277: the `_profile_node` appended for the current directory
(`user_config` is always `False` here). -/
def mkNode (c : Collab) (att : Option (PPath × Layout)) (p : PPath)
    (eapi : String) (showDep : Bool) : ProfileNode :=
  { location := p
  , portage1Directories := allowDirectoriesOf c att eapi
  , userConfig := false
  , profileFormats := currentFormatsOf att
  , eapi := some eapi
  , allowBuildId := (currentFormatsOf att).contains "build-id"
  , showDeprecatedWarning := showDep }

/-- Lines 248-270: the loop over the listed parent references, in file
order.  `child` stands for the recursive `_addProfile` call; each parent's
accumulated state precedes the next parent's.  A resolved parent that does
not exist raises the `ParseError` of lines 268-270. -/
def processParents (c : Collab) (cwd : PPath) (pathEx : PPath → Bool)
    (child : PPath → List (PPath × Layout) → Except PError Resolved)
    (currentPath parentsFile : PPath) (repoLoc : Option PPath)
    (allowColon : Bool) (inter : List (PPath × Layout)) :
    List String → Except PError Resolved
  | [] => Except.ok Resolved.empty
  | ref :: rest =>
    match resolveParentRef c cwd currentPath parentsFile repoLoc allowColon ref with
    | Except.error e => Except.error e
    | Except.ok pp =>
      if pathEx pp then
        match child pp inter with
        | Except.error e => Except.error e
        | Except.ok sub =>
          match processParents c cwd pathEx child currentPath parentsFile
              repoLoc allowColon inter rest with
          | Except.error e => Except.error e
          | Except.ok rres =>
            Except.ok { profiles := sub.profiles ++ rres.profiles
                      , profilesComplex := sub.profilesComplex ++ rres.profilesComplex
                      , advisories := sub.advisories ++ rres.advisories }
      else Except.error (PError.missingParent pp parentsFile)

/-- Lines 242-270: dispatch on the (grabfile-read) `parent` file — absent
means no parents, present but empty raises the line 245-247 `ParseError`,
otherwise the listed references are processed in order. -/
def parentsStep (c : Collab) (cwd : PPath) (pathEx : PPath → Bool)
    (child : PPath → List (PPath × Layout) → Except PError Resolved)
    (currentPath parentsFile : PPath) (repoLoc : Option PPath)
    (allowColon : Bool) (inter : List (PPath × Layout)) :
    Option (List String) → Except PError Resolved
  | none => Except.ok Resolved.empty
  | some [] => Except.error (PError.emptyParentFile parentsFile)
  | some (ref :: rest) =>
    processParents c cwd pathEx child currentPath parentsFile repoLoc
      allowColon inter (ref :: rest)

/-- Lines 170-277: one `_addProfile` visit, with `child` standing for the
recursive call used on each listed parent.  Repository attribution uses the
symlink-resolved path; the `eapi` and `parent` files are read from the
unresolved path; the node itself is appended last. -/
def addProfileCore (c : Collab) (fs : Fs) (knownRepos : List (PPath × Layout))
    (child : PPath → List (PPath × Layout) → Except PError Resolved)
    (currentPath : PPath) (previousRepos : List (PPath × Layout)) :
    Except PError Resolved :=
  let inter := intersectingRepos knownRepos (fs.realpath currentPath)
  let att := maxByLoc inter
  match resolveEapi c fs currentPath (defaultEapiOf att) with
  | Except.error e => Except.error e
  | Except.ok eapi =>
    let showDep := showDeprecatedOf previousRepos inter
    let offenders := offendersOf fs currentPath
    let ownAdvisories :=
      if compatModeOf c att eapi && !offenders.isEmpty
        then [(currentPath, offenders)] else []
    let parentsFile := parentsFileOf currentPath
    let parentsRes :=
      parentsStep c fs.cwd fs.pathExists child currentPath parentsFile
        (Option.map Prod.fst att) (allowParentColonOf att) inter
        (fs.parentLines currentPath)
    match parentsRes with
    | Except.error e => Except.error e
    | Except.ok pres =>
      Except.ok { profiles := pres.profiles ++ [currentPath]
                , profilesComplex :=
                    pres.profilesComplex ++ [mkNode c att currentPath eapi showDep]
                , advisories := ownAdvisories ++ pres.advisories }

/-- `_addProfile` with explicit recursion fuel: each recursive call on a
listed parent runs with one unit less; exhausted fuel models Python's
RecursionError on cyclic parent graphs. -/
def addProfile (c : Collab) (fs : Fs) (knownRepos : List (PPath × Layout)) :
    Nat → PPath → List (PPath × Layout) → Except PError Resolved
  | 0 => fun _ _ => Except.error PError.recursionLimit
  | n + 1 => addProfileCore c fs knownRepos (addProfile c fs knownRepos n)

/-- Forgets the advisory component of an outcome, keeping the error status
and the two profile stacks. -/
def stripAdv (r : Except PError Resolved) :
    Except PError (List PPath × List ProfileNode) :=
  r.map (fun x => (x.profiles, x.profilesComplex))

/-- Modelled from the spec: the collaborator
`read_corresponding_eapi_file(..., default=None)` (defined outside the
embedded file) reads the trimmed `eapi` marker of the user override
directory and yields `none` when absent. -/
def read_corresponding_eapi_file (fs : Fs) (p : PPath) : Option String :=
  (fs.eapiLine p).map pyStrip

/-- Lines 148-157: the synthetic user override node
(`_profile_node(custom_prof, True, True, ('profile-bashrcs', 'profile-set'),
read_corresponding_eapi_file(...), True, show_deprecated_warning=False)`). -/
def userProfileNode (fs : Fs) (customProf : PPath) : ProfileNode :=
  { location := customProf
  , portage1Directories := true
  , userConfig := true
  , profileFormats := ["profile-bashrcs", "profile-set"]
  , eapi := read_corresponding_eapi_file fs customProf
  , allowBuildId := true
  , showDeprecatedWarning := false }

/-- The observable outcome of `load_profiles`: the two final tuples and
whether the two `ParseError` diagnostics of lines 137-138 were written. -/
structure LoadOut where
  profiles : List PPath
  profilesComplex : List ProfileNode
  loggedParseError : Bool
deriving DecidableEq

/-- Lines 128-161 of `load_profiles`: resolve the stack from the (already
selected) active profile path, catch any `ParseError` — logging the
diagnostics only outside sync mode — and substitute empty stacks, then
append the user override node when user configuration is enabled, at least
one profile resolved, and the custom profile directory exists.  A
RecursionError (`recursionLimit`) is not a `ParseError` and propagates. -/
def load_profiles (c : Collab) (fs : Fs) (knownRepos : List (PPath × Layout))
    (syncMode userConfig : Bool) (profilePath : Option PPath)
    (customProf : PPath) (fuel : Nat) : Except PError LoadOut :=
  let base : Except PError (List PPath × List ProfileNode × Bool) :=
    match profilePath with
    | none => Except.ok ([], [], false)
    | some pp =>
      match addProfile c fs knownRepos fuel (fs.realpath pp) [] with
      | Except.ok r => Except.ok (r.profiles, r.profilesComplex, false)
      | Except.error PError.recursionLimit => Except.error PError.recursionLimit
      | Except.error _ => Except.ok ([], [], !syncMode)
  match base with
  | Except.error e => Except.error e
  | Except.ok (profiles, cxs, logged) =>
    if userConfig && !profiles.isEmpty && fs.pathExists customProf then
      Except.ok { profiles := profiles ++ [customProf]
                , profilesComplex := cxs ++ [userProfileNode fs customProf]
                , loggedParseError := logged }
    else
      Except.ok { profiles := profiles, profilesComplex := cxs
                , loggedParseError := logged }

/-- The failures of `set_root_override`. -/
inductive RootErr where
  | invalidLocation (p : PPath)
  | directoryNotFound (p : PPath)
deriving DecidableEq

/-- The locations `set_root_override` computes on success. -/
structure RootOut where
  targetRoot : PPath
  eroot : PPath
  globalConfigPath : PPath
deriving DecidableEq

/-- Lines 311-317: the effective target root — the constructor value wins
over the override, an override that strips to the empty string counts as
unset, `None` defaults to `/`, and the result is symlink-resolved and
normalized. -/
def effectiveTargetRoot (fs : Fs) (targetRoot : Option PPath)
    (rootOverwrite : Option String) : PPath :=
  let tr0 : Option PPath :=
    match targetRoot with
    | some t => some t
    | none =>
      match rootOverwrite with
      | some ov => if pyStrip ov == "" then none else some (parsePath ov)
      | none => none
  ((tr0.getD rootPath) |> fs.realpath).normalize

/-- Lines 308-334: `set_root_override`.  The sysroot must equal `/` or the
effective target root, else `InvalidLocation` — checked before the
directory is ensured and validated (`DirectoryNotFound`) and before `eroot`
and the prefix-adjusted global config path are computed. -/
def set_root_override (fs : Fs) (sysroot : PPath) (targetRoot : Option PPath)
    (rootOverwrite : Option String) (epfx : PPath) (epfxConst : PPath)
    (globalConfigPathConst : PPath) : Except RootErr RootOut :=
  let tr := effectiveTargetRoot fs targetRoot rootOverwrite
  if sysroot ≠ rootPath ∧ sysroot ≠ tr then
    Except.error (RootErr.invalidLocation sysroot)
  else if fs.ensuredIsDir tr then
    Except.ok { targetRoot := tr
              , eroot := tr.join (relPath epfx.parts)
              , globalConfigPath :=
                  if epfxConst.parts.isEmpty then globalConfigPathConst
                  else epfxConst.join (relPath globalConfigPathConst.parts) }
  else Except.error (RootErr.directoryNotFound tr)

/-! Concrete environments used by the witnesses and counterexamples below. -/

deriving instance DecidableEq for Except

/-- A collaborator valuation for concrete runs: the EAPIs `"0"` and `"7"`
are supported, no EAPI allows directory-style profile entries, and only
the repository name `"other"` resolves to a location. -/
def collabBase : Collab :=
  { eapiIsSupported := fun s => s == "0" || s == "7"
  , eapiAllowsDirectories := fun _ => false
  , getLocationForName := fun n =>
      if n == "other" then some { absolute := true, parts := ["other"] } else none }

/-- A filesystem with no files at all, identity symlink resolution and the
root as working directory; concrete runs override single fields. -/
def fsBare : Fs :=
  { realpath := fun p => p
  , pathExists := fun _ => false
  , eapiLine := fun _ => none
  , parentLines := fun _ => none
  , listdir := fun _ => []
  , isDir := fun _ => false
  , ensuredIsDir := fun _ => true
  , cwd := rootPath }

/-- The repository location `/r`. -/
def locR : PPath := { absolute := true, parts := ["r"] }

/-- The profile directory `/r/profiles/child`. -/
def pChild : PPath := { absolute := true, parts := ["r", "profiles", "child"] }

/-- The profile directory `/r/profiles/base`. -/
def pBase : PPath := { absolute := true, parts := ["r", "profiles", "base"] }

/-- A two-node world: `child` lists `../base` as its only parent. -/
def fsC1 : Fs :=
  { fsBare with
      pathExists := fun p => p == pChild || p == pBase
    , parentLines := fun p => if p == pChild then some ["../base"] else none }

/-- A layout that declares no formats and the default EAPI `"weird"`. -/
def layWeird : Layout := { profileFormats := [], defaultEapi := some "weird" }

/-- Known repositories: `/r` with an unsupported default EAPI. -/
def krC2 : List (PPath × Layout) := [(locR, layWeird)]

/-- The profile directory `/r/profiles/x`. -/
def pC2 : PPath := { absolute := true, parts := ["r", "profiles", "x"] }

/-- A filesystem whose every directory has an `eapi` file reading
`" bad "`. -/
def fsBad : Fs := { fsBare with eapiLine := fun _ => some " bad " }

/-- The profile directory `/p3`. -/
def pC3 : PPath := { absolute := true, parts := ["p3"] }

/-- A world where `/p3` has an existing but empty `parent` file. -/
def fsC3 : Fs :=
  { fsBare with parentLines := fun p => if p == pC3 then some [] else none }

/-- The repository location `/repo`. -/
def locRepo : PPath := { absolute := true, parts := ["repo"] }

/-- The nested repository location `/repo/nested`. -/
def locNested : PPath := { absolute := true, parts := ["repo", "nested"] }

/-- A layout with no formats and no default EAPI. -/
def layEmpty : Layout := { profileFormats := [], defaultEapi := none }

/-- Two known repositories, one nested in the other. -/
def krC4 : List (PPath × Layout) := [(locRepo, layEmpty), (locNested, layEmpty)]

/-- A profile path inside the nested repository. -/
def rpC4 : PPath := { absolute := true, parts := ["repo", "nested", "profiles", "x"] }

/-- The profile directory `/r/profiles/a`. -/
def pA5 : PPath := { absolute := true, parts := ["r", "profiles", "a"] }

/-- The profile directory `/r/profiles/b`. -/
def pB5 : PPath := { absolute := true, parts := ["r", "profiles", "b"] }

/-- A layout declaring exactly the `portage-1-compat` format. -/
def layCompat : Layout := { profileFormats := ["portage-1-compat"], defaultEapi := none }

/-- Known repositories: `/r` in compat format. -/
def krC5 : List (PPath × Layout) := [(locR, layCompat)]

/-- A compat-mode world: `a` lists `../b`; `b` contains a `use.mask`
directory, triggering the legacy-layout advisory. -/
def fsC5 : Fs :=
  { fsBare with
      pathExists := fun p => p == pA5 || p == pB5
    , parentLines := fun p => if p == pA5 then some ["../b"] else none
    , listdir := fun p => if p == pB5 then ["use.mask"] else []
    , isDir := fun p => p == pB5.join (relPath ["use.mask"]) }

/-- The profile directory `/p8`. -/
def pC8 : PPath := { absolute := true, parts := ["p8"] }

/-- A world where `/p8` lists a parent whose target does not exist. -/
def fsC8 : Fs :=
  { fsBare with
      pathExists := fun p => p == pC8
    , parentLines := fun p => if p == pC8 then some ["../missing"] else none }

/-- The user override directory `/etc/portage/profile`. -/
def customProf : PPath := { absolute := true, parts := ["etc", "portage", "profile"] }

/-- The two-node world of `fsC1` extended with an existing user override
directory. -/
def fsC10 : Fs :=
  { fsBare with
      pathExists := fun p => p == pChild || p == pBase || p == customProf
    , parentLines := fun p => if p == pChild then some ["../base"] else none }

/-! Helper lemmas about the traversal. -/

theorem addProfile_succ (c : Collab) (fs : Fs) (kr : List (PPath × Layout))
    (n : Nat) (p : PPath) (prev : List (PPath × Layout)) :
    addProfile c fs kr (n + 1) p prev =
      addProfileCore c fs kr (addProfile c fs kr n) p prev := rfl

theorem processParents_ok (c : Collab) (cwd : PPath) (pathEx : PPath → Bool)
    (child : PPath → List (PPath × Layout) → Except PError Resolved)
    (cp pf : PPath) (rl : Option PPath) (ac : Bool)
    (inter : List (PPath × Layout)) :
    ∀ (refs : List String) (res : Resolved),
      processParents c cwd pathEx child cp pf rl ac inter refs = Except.ok res →
      ∃ parts : List (String × PPath × Resolved),
        parts.map Prod.fst = refs ∧
        res.profiles = (parts.map (fun x => x.2.2.profiles)).flatten ∧
        res.profilesComplex = (parts.map (fun x => x.2.2.profilesComplex)).flatten ∧
        res.advisories = (parts.map (fun x => x.2.2.advisories)).flatten ∧
        ∀ x ∈ parts,
          resolveParentRef c cwd cp pf rl ac x.1 = Except.ok x.2.1 ∧
          pathEx x.2.1 = true ∧
          child x.2.1 inter = Except.ok x.2.2 := by
  intro refs
  induction refs with
  | nil =>
    intro res h
    simp only [processParents] at h
    cases h
    exact ⟨[], rfl, rfl, rfl, rfl, by intro x hx; cases hx⟩
  | cons ref rest ih =>
    intro res h
    rw [processParents] at h
    split at h
    · cases h
    · rename_i pp hr
      split at h
      · rename_i hex
        split at h
        · cases h
        · rename_i sub hc
          split at h
          · cases h
          · rename_i rres hrest
            cases h
            obtain ⟨parts, hfst, hp, hcx, hadv, hall⟩ := ih rres hrest
            refine ⟨(ref, pp, sub) :: parts, ?_, ?_, ?_, ?_, ?_⟩
            · simp [hfst]
            · simp [hp]
            · simp [hcx]
            · simp [hadv]
            · intro x hx
              cases hx with
              | head => exact ⟨hr, hex, hc⟩
              | tail _ hx => exact hall x hx
      · cases h

theorem addProfileCore_ok (c : Collab) (fs : Fs) (kr : List (PPath × Layout))
    (child : PPath → List (PPath × Layout) → Except PError Resolved)
    (p : PPath) (prev : List (PPath × Layout)) (res : Resolved)
    (h : addProfileCore c fs kr child p prev = Except.ok res) :
    ∃ (eapi : String) (pres : Resolved),
      resolveEapi c fs p (defaultEapiOf (attributeRepo kr (fs.realpath p))) =
        Except.ok eapi ∧
      (match fs.parentLines p with
       | none => pres = Resolved.empty
       | some [] => False
       | some (ref :: rest) =>
         processParents c fs.cwd fs.pathExists child p (parentsFileOf p)
           (Option.map Prod.fst (attributeRepo kr (fs.realpath p)))
           (allowParentColonOf (attributeRepo kr (fs.realpath p)))
           (intersectingRepos kr (fs.realpath p)) (ref :: rest) = Except.ok pres) ∧
      res = { profiles := pres.profiles ++ [p]
            , profilesComplex := pres.profilesComplex ++
                [mkNode c (attributeRepo kr (fs.realpath p)) p eapi
                  (showDeprecatedOf prev (intersectingRepos kr (fs.realpath p)))]
            , advisories :=
                (if compatModeOf c (attributeRepo kr (fs.realpath p)) eapi &&
                    !(offendersOf fs p).isEmpty
                 then [(p, offendersOf fs p)] else []) ++ pres.advisories } := by
  simp only [addProfileCore, attributeRepo] at h ⊢
  split at h
  · cases h
  · rename_i eapi he
    refine ⟨eapi, ?_⟩
    split at h
    · cases h
    · rename_i rres hpl
      cases h
      cases hplx : fs.parentLines p with
      | none =>
        rw [hplx] at hpl
        simp only [parentsStep] at hpl
        cases hpl
        exact ⟨Resolved.empty, he, rfl, rfl⟩
      | some parents =>
        rw [hplx] at hpl
        cases parents with
        | nil =>
          simp only [parentsStep] at hpl
          cases hpl
        | cons ref rest =>
          simp only [parentsStep] at hpl
          exact ⟨rres, he, hpl, rfl⟩

theorem getLast?_append_single {α : Type} (l : List α) (a : α) :
    (l ++ [a]).getLast? = some a :=
  List.getLast?_concat l

/-- Claim C1: on every successful `_addProfile` visit, the full resolved
sub-stack of each listed parent appears strictly before the current node,
the sub-stacks follow the declaration order of the `parent` file, and the
current node itself is the last element of the produced stack. -/
theorem c1_parent_substacks_precede_node
    (c : Collab) (fs : Fs) (kr : List (PPath × Layout)) (n : Nat)
    (p : PPath) (prev : List (PPath × Layout)) (res : Resolved)
    (h : addProfile c fs kr (n + 1) p prev = Except.ok res) :
    ∃ node : ProfileNode, node.location = p ∧
      res.profilesComplex.getLast? = some node ∧
      (fs.parentLines p = none → res.profilesComplex = [node]) ∧
      (∀ parents, fs.parentLines p = some parents →
        ∃ parts : List (String × PPath × Resolved),
          parts.map Prod.fst = parents ∧
          res.profilesComplex =
            (parts.map (fun x => x.2.2.profilesComplex)).flatten ++ [node] ∧
          ∀ x ∈ parts,
            resolveParentRef c fs.cwd p (parentsFileOf p)
              (Option.map Prod.fst (attributeRepo kr (fs.realpath p)))
              (allowParentColonOf (attributeRepo kr (fs.realpath p))) x.1 =
                Except.ok x.2.1 ∧
            fs.pathExists x.2.1 = true ∧
            addProfile c fs kr n x.2.1 (intersectingRepos kr (fs.realpath p)) =
              Except.ok x.2.2) := by
  rw [addProfile_succ] at h
  obtain ⟨eapi, pres, he, hmid, hres⟩ := addProfileCore_ok c fs kr _ p prev res h
  refine ⟨mkNode c (attributeRepo kr (fs.realpath p)) p eapi
    (showDeprecatedOf prev (intersectingRepos kr (fs.realpath p))), rfl, ?_, ?_, ?_⟩
  · rw [hres]
    exact getLast?_append_single _ _
  · intro hnone
    rw [hnone] at hmid
    have hemp : pres = Resolved.empty := hmid
    rw [hres, hemp]
    rfl
  · intro parents hsome
    rw [hsome] at hmid
    cases parents with
    | nil => exact absurd hmid not_false
    | cons ref rest =>
      have hpp : processParents c fs.cwd fs.pathExists (addProfile c fs kr n) p
          (parentsFileOf p)
          (Option.map Prod.fst (attributeRepo kr (fs.realpath p)))
          (allowParentColonOf (attributeRepo kr (fs.realpath p)))
          (intersectingRepos kr (fs.realpath p)) (ref :: rest) =
            Except.ok pres := hmid
      obtain ⟨parts, hfst, hp, hcx, hadv, hall⟩ :=
        processParents_ok c fs.cwd fs.pathExists (addProfile c fs kr n) p
          (parentsFileOf p)
          (Option.map Prod.fst (attributeRepo kr (fs.realpath p)))
          (allowParentColonOf (attributeRepo kr (fs.realpath p)))
          (intersectingRepos kr (fs.realpath p)) (ref :: rest) pres hpp
      refine ⟨parts, hfst, ?_, hall⟩
      rw [hres]
      show pres.profilesComplex ++ _ = _
      rw [hcx]

/-- Witness for C1: the concrete two-node run, where the parent stack of
`/r/profiles/child` is exactly the resolved sub-stack of `../base`
followed by the node itself. -/
theorem c1_witness :
    ∃ res : Resolved, addProfile collabBase fsC1 [] 2 pChild [] = Except.ok res ∧
      ∃ node : ProfileNode, node.location = pChild ∧
        res.profilesComplex.getLast? = some node ∧
        ∀ parents, fsC1.parentLines pChild = some parents →
          ∃ parts : List (String × PPath × Resolved),
            parts.map Prod.fst = parents ∧
            res.profilesComplex =
              (parts.map (fun x => x.2.2.profilesComplex)).flatten ++ [node] ∧
            ∀ x ∈ parts,
              resolveParentRef collabBase fsC1.cwd pChild (parentsFileOf pChild)
                (Option.map Prod.fst (attributeRepo [] (fsC1.realpath pChild)))
                (allowParentColonOf (attributeRepo [] (fsC1.realpath pChild))) x.1 =
                  Except.ok x.2.1 ∧
              fsC1.pathExists x.2.1 = true ∧
              addProfile collabBase fsC1 [] 1 x.2.1
                (intersectingRepos [] (fsC1.realpath pChild)) = Except.ok x.2.2 := by
  obtain ⟨node, h1, h2, h3, h4⟩ :=
    c1_parent_substacks_precede_node collabBase fsC1 [] 1 pChild []
      { profiles := [pBase, pChild]
      , profilesComplex :=
          [ { location := pBase, portage1Directories := true, userConfig := false
            , profileFormats := [], eapi := some "0", allowBuildId := false
            , showDeprecatedWarning := false }
          , { location := pChild, portage1Directories := true, userConfig := false
            , profileFormats := [], eapi := some "0", allowBuildId := false
            , showDeprecatedWarning := false } ]
      , advisories := [] } (by decide)
  exact ⟨_, by decide, node, h1, h2, h4⟩

theorem addProfileCore_eapi_error (c : Collab) (fs : Fs)
    (kr : List (PPath × Layout))
    (child : PPath → List (PPath × Layout) → Except PError Resolved)
    (p : PPath) (prev : List (PPath × Layout)) (e : PError)
    (he : resolveEapi c fs p (defaultEapiOf (attributeRepo kr (fs.realpath p))) =
      Except.error e) :
    addProfileCore c fs kr child p prev = Except.error e := by
  simp only [attributeRepo] at he
  simp only [addProfileCore, he]

theorem addProfileCore_parents_error (c : Collab) (fs : Fs)
    (kr : List (PPath × Layout))
    (child : PPath → List (PPath × Layout) → Except PError Resolved)
    (p : PPath) (prev : List (PPath × Layout)) (parents : List String)
    (e0 : String) (err : PError)
    (he : resolveEapi c fs p (defaultEapiOf (attributeRepo kr (fs.realpath p))) =
      Except.ok e0)
    (hpl : fs.parentLines p = some parents)
    (hne : parents ≠ [])
    (hproc : processParents c fs.cwd fs.pathExists child p (parentsFileOf p)
      (Option.map Prod.fst (attributeRepo kr (fs.realpath p)))
      (allowParentColonOf (attributeRepo kr (fs.realpath p)))
      (intersectingRepos kr (fs.realpath p)) parents = Except.error err) :
    addProfileCore c fs kr child p prev = Except.error err := by
  cases parents with
  | nil => exact absurd rfl hne
  | cons ref rest =>
    simp only [attributeRepo] at he hproc
    simp only [addProfileCore, parentsStep, he, hpl, hproc]

theorem processParents_missing (c : Collab) (cwd : PPath) (pathEx : PPath → Bool)
    (child : PPath → List (PPath × Layout) → Except PError Resolved)
    (cp pf : PPath) (rl : Option PPath) (ac : Bool)
    (inter : List (PPath × Layout)) :
    ∀ (pre : List String) (ref : String) (post : List String) (pp : PPath),
      (∀ r ∈ pre, ∃ q sub, resolveParentRef c cwd cp pf rl ac r = Except.ok q ∧
        pathEx q = true ∧ child q inter = Except.ok sub) →
      resolveParentRef c cwd cp pf rl ac ref = Except.ok pp →
      pathEx pp = false →
      processParents c cwd pathEx child cp pf rl ac inter (pre ++ ref :: post) =
        Except.error (PError.missingParent pp pf) := by
  intro pre
  induction pre with
  | nil =>
    intro ref post pp _ href hex
    simp [processParents, href, hex]
  | cons r pre ih =>
    intro ref post pp hpre href hex
    obtain ⟨q, sub, hq, hqex, hsub⟩ := hpre r (List.mem_cons_self r pre)
    have hrest := ih ref post pp
      (fun r0 hr0 => hpre r0 (List.mem_cons_of_mem r hr0)) href hex
    simp [processParents, hq, hqex, hsub, hrest]

/-- Claim C2 (amended): the resolved EAPI of a visited node follows the
precedence — trimmed first line of an existing `eapi` file, else the
matched repository's declared default, else `"0"` — but the support check
runs only when the marker file exists: an unsupported marker value fails
with `ParseError` naming the file, while a fallback value (repository
default or `"0"`) is used without validation. -/
theorem c2_eapi_precedence
    (c : Collab) (fs : Fs) (kr : List (PPath × Layout)) (n : Nat)
    (p : PPath) (prev : List (PPath × Layout)) :
    (∀ line, fs.eapiLine p = some line →
      c.eapiIsSupported (pyStrip line) = false →
      addProfile c fs kr (n + 1) p prev =
        Except.error (PError.unsupportedEapi (pyStrip line)
          (fs.realpath (eapiFileOf p)))) ∧
    (∀ res, addProfile c fs kr (n + 1) p prev = Except.ok res →
      ∃ node, res.profilesComplex.getLast? = some node ∧
        node.eapi = some (match fs.eapiLine p with
          | some line => pyStrip line
          | none => pyOr (defaultEapiOf (attributeRepo kr (fs.realpath p))))) ∧
    (fs.eapiLine p = none →
      resolveEapi c fs p (defaultEapiOf (attributeRepo kr (fs.realpath p))) =
        Except.ok (pyOr (defaultEapiOf (attributeRepo kr (fs.realpath p))))) := by
  refine ⟨?_, ?_, ?_⟩
  · intro line hline hbad
    rw [addProfile_succ]
    apply addProfileCore_eapi_error
    simp only [resolveEapi, hline, hbad, Bool.false_eq_true, if_false]
  · intro res h
    rw [addProfile_succ] at h
    obtain ⟨eapi, pres, he, hmid, hres⟩ := addProfileCore_ok c fs kr _ p prev res h
    refine ⟨mkNode c (attributeRepo kr (fs.realpath p)) p eapi
      (showDeprecatedOf prev (intersectingRepos kr (fs.realpath p))), ?_, ?_⟩
    · rw [hres]
      exact getLast?_append_single _ _
    · show some eapi = _
      cases hel : fs.eapiLine p with
      | none =>
        simp only [resolveEapi, hel] at he
        cases he
        rfl
      | some line =>
        simp only [resolveEapi, hel] at he
        split at he
        · cases he
          rfl
        · cases he
  · intro hel
    simp only [resolveEapi, hel]

/-- Counterexample for C2 as stated: with no `eapi` marker file and a
matched repository whose declared default EAPI `"weird"` is unsupported,
resolution succeeds and the node carries the unsupported EAPI — no
`ParseError` is raised for a fallback value. -/
theorem c2_counterexample :
    collabBase.eapiIsSupported "weird" = false ∧
    fsBare.eapiLine pC2 = none ∧
    addProfile collabBase fsBare krC2 1 pC2 [] = Except.ok
      { profiles := [pC2]
      , profilesComplex :=
          [ { location := pC2, portage1Directories := false, userConfig := false
            , profileFormats := [], eapi := some "weird", allowBuildId := false
            , showDeprecatedWarning := true } ]
      , advisories := [] } := by decide

/-- Witness for C2 (amended): a marker file reading `" bad "` fails with
the `ParseError` naming the trimmed value and the marker file, while the
unsupported repository default is accepted when no marker exists. -/
theorem c2_witness :
    fsBad.eapiLine pC2 = some " bad " ∧
    collabBase.eapiIsSupported (pyStrip " bad ") = false ∧
    addProfile collabBase fsBad krC2 1 pC2 [] =
      Except.error (PError.unsupportedEapi (pyStrip " bad ")
        (fsBad.realpath (eapiFileOf pC2))) ∧
    resolveEapi collabBase fsBare pC2
        (defaultEapiOf (attributeRepo krC2 (fsBare.realpath pC2))) =
      Except.ok (pyOr (defaultEapiOf (attributeRepo krC2 (fsBare.realpath pC2)))) := by
  refine ⟨by decide, by decide, ?_, ?_⟩
  · exact (c2_eapi_precedence collabBase fsBad krC2 0 pC2 []).1 " bad "
      (by decide) (by decide)
  · exact (c2_eapi_precedence collabBase fsBare krC2 0 pC2 []).2.2 (by decide)

/-- Claim C8: with a sound EAPI at the current node, an existing but empty
`parent` file fails with the `ParseError` naming the parent file, and a
listed parent whose resolved target does not exist — all earlier listed
parents resolving and recursing successfully — fails with the `ParseError`
naming both the missing parent path and the parent file. -/
theorem c8_parent_file_errors
    (c : Collab) (fs : Fs) (kr : List (PPath × Layout)) (n : Nat)
    (p : PPath) (prev : List (PPath × Layout)) (e0 : String)
    (he : resolveEapi c fs p (defaultEapiOf (attributeRepo kr (fs.realpath p))) =
      Except.ok e0) :
    (fs.parentLines p = some [] →
      addProfile c fs kr (n + 1) p prev =
        Except.error (PError.emptyParentFile (parentsFileOf p))) ∧
    (∀ (pre : List String) (ref : String) (post : List String) (pp : PPath),
      fs.parentLines p = some (pre ++ ref :: post) →
      (∀ r ∈ pre, ∃ q sub,
        resolveParentRef c fs.cwd p (parentsFileOf p)
          (Option.map Prod.fst (attributeRepo kr (fs.realpath p)))
          (allowParentColonOf (attributeRepo kr (fs.realpath p))) r =
            Except.ok q ∧
        fs.pathExists q = true ∧
        addProfile c fs kr n q (intersectingRepos kr (fs.realpath p)) =
          Except.ok sub) →
      resolveParentRef c fs.cwd p (parentsFileOf p)
        (Option.map Prod.fst (attributeRepo kr (fs.realpath p)))
        (allowParentColonOf (attributeRepo kr (fs.realpath p))) ref =
          Except.ok pp →
      fs.pathExists pp = false →
      addProfile c fs kr (n + 1) p prev =
        Except.error (PError.missingParent pp (parentsFileOf p))) := by
  constructor
  · intro hpl
    rw [addProfile_succ]
    simp only [attributeRepo] at he
    simp only [addProfileCore, parentsStep, he, hpl]
  · intro pre ref post pp hpl hpre href hex
    rw [addProfile_succ]
    apply addProfileCore_parents_error c fs kr _ p prev (pre ++ ref :: post) e0
      (PError.missingParent pp (parentsFileOf p)) he hpl
    · cases pre <;> simp
    · exact processParents_missing c fs.cwd fs.pathExists _ p (parentsFileOf p)
        (Option.map Prod.fst (attributeRepo kr (fs.realpath p)))
        (allowParentColonOf (attributeRepo kr (fs.realpath p)))
        (intersectingRepos kr (fs.realpath p)) pre ref post pp hpre href hex

/-- Witness for C8: the empty `parent` file at `/p3` and the missing
parent `../missing` of `/p8` raise the two `ParseError`s. -/
theorem c8_witness :
    resolveEapi collabBase fsC3 pC3
        (defaultEapiOf (attributeRepo [] (fsC3.realpath pC3))) = Except.ok "0" ∧
    addProfile collabBase fsC3 [] 1 pC3 [] =
      Except.error (PError.emptyParentFile (parentsFileOf pC3)) ∧
    addProfile collabBase fsC8 [] 1 pC8 [] =
      Except.error (PError.missingParent
        { absolute := true, parts := ["missing"] } (parentsFileOf pC8)) := by
  refine ⟨by decide, ?_, ?_⟩
  · exact (c8_parent_file_errors collabBase fsC3 [] 0 pC3 [] "0" (by decide)).1
      (by decide)
  · exact (c8_parent_file_errors collabBase fsC8 [] 0 pC8 [] "0" (by decide)).2
      [] "../missing" [] { absolute := true, parts := ["missing"] }
      (by decide) (by simp) (by decide) (by decide)

theorem foldlMax_spec :
    ∀ (xs : List (PPath × Layout)) (x : PPath × Layout),
      (xs.foldl (fun best y =>
        if best.1.parts.length < y.1.parts.length then y else best) x) ∈ x :: xs ∧
      ∀ y ∈ x :: xs, y.1.parts.length ≤
        (xs.foldl (fun best y =>
          if best.1.parts.length < y.1.parts.length then y else best) x).1.parts.length := by
  intro xs
  induction xs with
  | nil =>
    intro x
    refine ⟨List.mem_cons_self x [], ?_⟩
    intro z hz
    rcases List.mem_cons.mp hz with h | h
    · subst h; exact Nat.le_refl _
    · cases h
  | cons y ys ih =>
    intro x
    rw [List.foldl_cons]
    by_cases hc : x.1.parts.length < y.1.parts.length
    · rw [if_pos hc]
      obtain ⟨hmem, hmax⟩ := ih y
      refine ⟨List.mem_cons_of_mem x hmem, ?_⟩
      intro z hz
      rcases List.mem_cons.mp hz with h | h
      · subst h
        exact Nat.le_trans (Nat.le_of_lt hc) (hmax y (List.mem_cons_self y ys))
      · exact hmax z h
    · rw [if_neg hc]
      obtain ⟨hmem, hmax⟩ := ih x
      refine ⟨?_, ?_⟩
      · rcases List.mem_cons.mp hmem with h | h
        · exact List.mem_cons.mpr (Or.inl h)
        · exact List.mem_cons_of_mem x (List.mem_cons_of_mem y h)
      · intro z hz
        rcases List.mem_cons.mp hz with h | h
        · rw [h]
          exact hmax x (List.mem_cons_self x ys)
        · rcases List.mem_cons.mp h with h2 | h2
          · rw [h2]
            exact Nat.le_trans (Nat.le_of_not_lt hc) (hmax x (List.mem_cons_self x ys))
          · exact hmax z (List.mem_cons_of_mem x h2)

theorem maxByLoc_spec (l : List (PPath × Layout)) (r : PPath × Layout)
    (h : maxByLoc l = some r) :
    r ∈ l ∧ ∀ x ∈ l, x.1.parts.length ≤ r.1.parts.length := by
  cases l with
  | nil => cases h
  | cons x xs =>
    simp only [maxByLoc] at h
    cases h
    exact foldlMax_spec xs x

/-- Claim C4: a visited profile path is attributed to the intersecting
known repository with the most location components (so nested repositories
win over enclosing ones); with no intersecting repository the attribution
is empty and the produced node's declared formats are the empty
sequence. -/
theorem c4_repository_attribution (kr : List (PPath × Layout)) (rp : PPath) :
    ((∃ x ∈ kr, isRelativeTo rp x.1 = true) →
      ∃ r, attributeRepo kr rp = some r ∧ r ∈ kr ∧ isRelativeTo rp r.1 = true ∧
        ∀ x ∈ kr, isRelativeTo rp x.1 = true →
          x.1.parts.length ≤ r.1.parts.length) ∧
    ((∀ x ∈ kr, isRelativeTo rp x.1 = false) → attributeRepo kr rp = none) ∧
    (∀ (c : Collab) (fs : Fs) (n : Nat) (p : PPath)
        (prev : List (PPath × Layout)) (res : Resolved),
      fs.realpath p = rp →
      addProfile c fs kr (n + 1) p prev = Except.ok res →
      res.profilesComplex.getLast?.map ProfileNode.profileFormats =
        some (currentFormatsOf (attributeRepo kr rp))) := by
  refine ⟨?_, ?_, ?_⟩
  · rintro ⟨x0, hx0, hrel0⟩
    cases hm : maxByLoc (intersectingRepos kr rp) with
    | none =>
      exfalso
      have hmem : x0 ∈ intersectingRepos kr rp :=
        List.mem_filter.mpr ⟨hx0, by simp [hrel0]⟩
      cases hi : intersectingRepos kr rp with
      | nil => rw [hi] at hmem; cases hmem
      | cons a l => rw [hi] at hm; simp only [maxByLoc] at hm; cases hm
    | some r =>
      obtain ⟨hmem, hmax⟩ := maxByLoc_spec _ r hm
      have hr := List.mem_filter.mp hmem
      refine ⟨r, hm, hr.1, by simpa using hr.2, ?_⟩
      intro x hx hrel
      exact hmax x (List.mem_filter.mpr ⟨hx, by simp [hrel]⟩)
  · intro hall
    have : intersectingRepos kr rp = [] := by
      apply List.filter_eq_nil_iff.mpr
      intro x hx
      simp [hall x hx]
    rw [attributeRepo, this]
    rfl
  · intro c fs n p prev res hrp h
    rw [addProfile_succ] at h
    obtain ⟨eapi, pres, he, hmid, hres⟩ := addProfileCore_ok c fs kr _ p prev res h
    rw [hres, hrp]
    show ((pres.profilesComplex ++ [_]).getLast?).map _ = _
    rw [getLast?_append_single]
    rfl

/-- Witness for C4: under `/repo` and `/repo/nested`, the profile
`/repo/nested/profiles/x` is attributed to the nested repository, and the
produced node carries its (empty) declared formats. -/
theorem c4_witness :
    (∃ r, attributeRepo krC4 rpC4 = some r ∧ r ∈ krC4 ∧
      isRelativeTo rpC4 r.1 = true ∧
      ∀ x ∈ krC4, isRelativeTo rpC4 x.1 = true →
        x.1.parts.length ≤ r.1.parts.length) ∧
    attributeRepo krC4 rpC4 = some (locNested, layEmpty) ∧
    ({ profiles := [rpC4]
     , profilesComplex :=
        [ { location := rpC4, portage1Directories := false, userConfig := false
          , profileFormats := [], eapi := some "0", allowBuildId := false
          , showDeprecatedWarning := true } ]
     , advisories := [] } : Resolved).profilesComplex.getLast?.map
        ProfileNode.profileFormats = some (currentFormatsOf (attributeRepo krC4 rpC4)) := by
  refine ⟨?_, by decide, ?_⟩
  · exact (c4_repository_attribution krC4 rpC4).1
      ⟨(locNested, layEmpty), by decide, by decide⟩
  · exact (c4_repository_attribution krC4 rpC4).2.2 collabBase fsBare 0 rpC4 [] _
      (by decide) (by decide)

theorem join_normalize_absolute (curr pp : PPath) (h : curr.absolute = true) :
    ((curr.join pp).normalize).absolute = true := by
  show (curr.join pp).absolute = true
  rw [PPath.join]
  split
  · rename_i hq; exact hq
  · exact h

/-- Claim C6: for every parent reference processed from an absolute current
directory — which every `_addProfile` call site provides — the joined,
normalized path is absolute, so both the source's re-resolution condition
and the spec's wording of it hold, the two conditions agree, and
`resolveParentRef` applies the re-resolution: the joined path is
re-resolved exactly when the claimed disjunction holds, and every path
handed to recursion is absolute. -/
theorem c6_reresolve_condition (repoLoc : Option PPath) (curr pp : PPath)
    (h : curr.absolute = true) :
    reresolveCond repoLoc ((curr.join pp).normalize) = true ∧
    specReresolveCond repoLoc ((curr.join pp).normalize) = true ∧
    reresolveCond repoLoc ((curr.join pp).normalize) =
      specReresolveCond repoLoc ((curr.join pp).normalize) ∧
    (∀ (c : Collab) (cwd pf : PPath) (ac : Bool) (ref : String) (q : PPath),
      resolveParentRef c cwd curr pf repoLoc ac ref = Except.ok q →
      q.absolute = true) := by
  have habs := join_normalize_absolute curr pp h
  refine ⟨?_, ?_, ?_, ?_⟩
  · simp [reresolveCond, habs]
  · simp [specReresolveCond, habs]
  · simp [reresolveCond, specReresolveCond, habs]
  · intro c cwd pf ac ref q hok
    rw [resolveParentRef] at hok
    split at hok
    · cases hok
    · rename_i pp0 hpp0
      cases hok
      have habs0 := join_normalize_absolute curr pp0 h
      rw [if_pos (by simp [reresolveCond, habs0])]
      rw [pyAbsolute, if_pos habs0]
      exact habs0

/-- Witness for C6: the reference `../base` joined below
`/r/profiles/child` is re-resolved (both condition readings hold) and
recursion receives the absolute `/r/profiles/base`. -/
theorem c6_witness :
    reresolveCond (some locR) ((pChild.join (parsePath "../base")).normalize) = true ∧
    specReresolveCond (some locR) ((pChild.join (parsePath "../base")).normalize) = true ∧
    pBase.absolute = true := by
  have H := c6_reresolve_condition (some locR) pChild (parsePath "../base") (by decide)
  exact ⟨H.1, H.2.1,
    H.2.2.2 collabBase rootPath (parentsFileOf pChild) true "../base" pBase (by decide)⟩

/-- Claim C9: `set_root_override` fails with `InvalidLocation` exactly when
the normalized sysroot equals neither `/` nor the effective (normalized)
target root; a sysroot of `/` never produces `InvalidLocation`; and when
the check fails the `InvalidLocation` error is returned before the
directory-ensuring work (no `DirectoryNotFound` can pre-empt it). -/
theorem c9_sysroot_validation (fs : Fs) (sysroot : PPath)
    (targetRoot : Option PPath) (rootOverwrite : Option String)
    (epfx epfxConst gcp : PPath) :
    ((∃ q, set_root_override fs sysroot targetRoot rootOverwrite epfx
        epfxConst gcp = Except.error (RootErr.invalidLocation q)) ↔
      (sysroot ≠ rootPath ∧
        sysroot ≠ effectiveTargetRoot fs targetRoot rootOverwrite)) ∧
    (sysroot = rootPath →
      ∀ q, set_root_override fs sysroot targetRoot rootOverwrite epfx
        epfxConst gcp ≠ Except.error (RootErr.invalidLocation q)) ∧
    (sysroot ≠ rootPath →
      sysroot ≠ effectiveTargetRoot fs targetRoot rootOverwrite →
      set_root_override fs sysroot targetRoot rootOverwrite epfx
        epfxConst gcp = Except.error (RootErr.invalidLocation sysroot)) := by
  by_cases hc : sysroot ≠ rootPath ∧
      sysroot ≠ effectiveTargetRoot fs targetRoot rootOverwrite
  · have hrun : set_root_override fs sysroot targetRoot rootOverwrite epfx
        epfxConst gcp = Except.error (RootErr.invalidLocation sysroot) := by
      rw [set_root_override, if_pos hc]
    refine ⟨⟨fun _ => hc, fun _ => ⟨sysroot, hrun⟩⟩, ?_, fun _ _ => hrun⟩
    intro h0
    exact absurd h0 hc.1
  · have hrun : ∀ q, set_root_override fs sysroot targetRoot rootOverwrite epfx
        epfxConst gcp ≠ Except.error (RootErr.invalidLocation q) := by
      rw [set_root_override, if_neg hc]
      intro q
      split
      · intro h; cases h
      · intro h; cases h
    refine ⟨⟨?_, fun h => absurd h hc⟩, fun _ => hrun, ?_⟩
    · rintro ⟨q, hq⟩
      exact absurd hq (hrun q)
    · intro h1 h2
      exact absurd ⟨h1, h2⟩ hc

/-- Witness for C9: `sysroot = /opt/root` with target root `/` fails with
`InvalidLocation`, while `sysroot = /` never does, whatever the target. -/
theorem c9_witness :
    set_root_override fsBare { absolute := true, parts := ["opt", "root"] }
        (some rootPath) none rootPath rootPath rootPath =
      Except.error (RootErr.invalidLocation
        { absolute := true, parts := ["opt", "root"] }) ∧
    ∀ q, set_root_override fsBare rootPath
        (some { absolute := true, parts := ["x"] }) none rootPath rootPath
        rootPath ≠ Except.error (RootErr.invalidLocation q) := by
  constructor
  · exact (c9_sysroot_validation fsBare
      { absolute := true, parts := ["opt", "root"] } (some rootPath) none
      rootPath rootPath rootPath).2.2 (by decide) (by decide)
  · exact (c9_sysroot_validation fsBare rootPath
      (some { absolute := true, parts := ["x"] }) none rootPath rootPath
      rootPath).2.1 rfl

theorem memOfGet {α : Type} :
    ∀ (l : List α) (i : Nat) (a : α), l[i]? = some a → a ∈ l := by
  intro l
  induction l with
  | nil =>
    intro i a h
    rw [List.getElem?_nil] at h
    cases h
  | cons x xs ih =>
    intro i a h
    cases i with
    | zero =>
      rw [List.getElem?_cons_zero] at h
      cases h
      exact List.mem_cons_self x xs
    | succ j =>
      rw [List.getElem?_cons_succ] at h
      exact List.mem_cons_of_mem x (ih j a h)

theorem addProfile_lockstep (c : Collab) (fs : Fs) (kr : List (PPath × Layout)) :
    ∀ (n : Nat) (p : PPath) (prev : List (PPath × Layout)) (res : Resolved),
      addProfile c fs kr n p prev = Except.ok res →
      res.profiles = res.profilesComplex.map ProfileNode.location ∧
      ∀ nd ∈ res.profilesComplex, nd.userConfig = false := by
  intro n
  induction n with
  | zero => intro p prev res h; cases h
  | succ n ih =>
    intro p prev res h
    rw [addProfile_succ] at h
    obtain ⟨eapi, pres, he, hmid, hres⟩ := addProfileCore_ok c fs kr _ p prev res h
    have hpres : pres.profiles = pres.profilesComplex.map ProfileNode.location ∧
        ∀ nd ∈ pres.profilesComplex, nd.userConfig = false := by
      cases hpl : fs.parentLines p with
      | none =>
        rw [hpl] at hmid
        have hemp : pres = Resolved.empty := hmid
        rw [hemp]
        exact ⟨rfl, fun nd hnd => absurd hnd (List.not_mem_nil nd)⟩
      | some parents =>
        rw [hpl] at hmid
        cases parents with
        | nil => exact absurd hmid not_false
        | cons ref rest =>
          have hpp : processParents c fs.cwd fs.pathExists (addProfile c fs kr n) p
              (parentsFileOf p)
              (Option.map Prod.fst (attributeRepo kr (fs.realpath p)))
              (allowParentColonOf (attributeRepo kr (fs.realpath p)))
              (intersectingRepos kr (fs.realpath p)) (ref :: rest) =
                Except.ok pres := hmid
          obtain ⟨parts, hfst, hp, hcx, hadv, hall⟩ :=
            processParents_ok _ _ _ _ _ _ _ _ _ (ref :: rest) pres hpp
          constructor
          · rw [hp, hcx, List.map_flatten, List.map_map]
            congr 1
            apply List.map_congr_left
            intro x hx
            exact (ih x.2.1 _ x.2.2 (hall x hx).2.2).1
          · intro nd hnd
            rw [hcx, List.mem_flatten] at hnd
            obtain ⟨l, hl, hndl⟩ := hnd
            rw [List.mem_map] at hl
            obtain ⟨x, hx, hxl⟩ := hl
            exact (ih x.2.1 _ x.2.2 (hall x hx).2.2).2 nd (hxl ▸ hndl)
    rw [hres]
    constructor
    · show pres.profiles ++ [p] = (pres.profilesComplex ++ [_]).map _
      rw [List.map_append, hpres.1]
      rfl
    · intro nd hnd
      rcases List.mem_append.mp hnd with h1 | h1
      · exact hpres.2 nd h1
      · rw [List.mem_singleton] at h1
        rw [h1]
        rfl

theorem load_glue (fs : Fs) (userCfg : Bool) (custom : PPath)
    (profs : List PPath) (cxs : List ProfileNode) (lg : Bool) (out : LoadOut)
    (hk : profs = cxs.map ProfileNode.location)
    (hnu : ∀ nd ∈ cxs, nd.userConfig = false)
    (h : (if userCfg && !profs.isEmpty && fs.pathExists custom then
        Except.ok { profiles := profs ++ [custom]
                  , profilesComplex := cxs ++ [userProfileNode fs custom]
                  , loggedParseError := lg }
      else Except.ok { profiles := profs, profilesComplex := cxs
                     , loggedParseError := lg } : Except PError LoadOut) =
        Except.ok out) :
    out.profiles.length = out.profilesComplex.length ∧
    (∀ i : Nat, out.profiles[i]? =
      (out.profilesComplex[i]?).map ProfileNode.location) ∧
    (∀ (i : Nat) (node : ProfileNode), i + 1 < out.profilesComplex.length →
      out.profilesComplex[i]? = some node → node.userConfig = false) := by
  have main : out.profiles = out.profilesComplex.map ProfileNode.location ∧
      (∀ (i : Nat) (node : ProfileNode), i + 1 < out.profilesComplex.length →
        out.profilesComplex[i]? = some node → node.userConfig = false) := by
    split at h
    · cases h
      constructor
      · show profs ++ [custom] = (cxs ++ [userProfileNode fs custom]).map _
        rw [List.map_append, hk]
        rfl
      · intro i node hi hnode
        have hlen : i < cxs.length := by
          simp only [List.length_append, List.length_singleton] at hi
          omega
        rw [List.getElem?_append_left hlen] at hnode
        exact hnu node (memOfGet cxs i node hnode)
    · cases h
      exact ⟨hk, fun i node _ hnode => hnu node (memOfGet cxs i node hnode)⟩
  refine ⟨?_, ?_, main.2⟩
  · rw [main.1, List.length_map]
  · intro i
    rw [main.1, List.getElem?_map]

theorem load_profiles_eq (c : Collab) (fs : Fs) (kr : List (PPath × Layout))
    (syncMode userCfg : Bool) (pp : PPath) (custom : PPath) (fuel : Nat) :
    load_profiles c fs kr syncMode userCfg (some pp) custom fuel =
      match addProfile c fs kr fuel (fs.realpath pp) [] with
      | Except.ok r =>
        if userCfg && !r.profiles.isEmpty && fs.pathExists custom then
          Except.ok { profiles := r.profiles ++ [custom]
                    , profilesComplex :=
                        r.profilesComplex ++ [userProfileNode fs custom]
                    , loggedParseError := false }
        else Except.ok { profiles := r.profiles
                       , profilesComplex := r.profilesComplex
                       , loggedParseError := false }
      | Except.error PError.recursionLimit => Except.error PError.recursionLimit
      | Except.error _ =>
        if userCfg && !(([] : List PPath).isEmpty) && fs.pathExists custom then
          Except.ok { profiles := [] ++ [custom]
                    , profilesComplex := [] ++ [userProfileNode fs custom]
                    , loggedParseError := !syncMode }
        else Except.ok { profiles := [], profilesComplex := []
                       , loggedParseError := !syncMode } := by
  cases haddp : addProfile c fs kr fuel (fs.realpath pp) [] with
  | ok r => simp only [load_profiles, haddp]
  | error e => cases e <;> simp only [load_profiles, haddp]

/-- Claim C10: after every successful `load_profiles`, the two stacks have
equal length and agree position-wise (`profiles` holds exactly the node
locations), and every node except a possible final user-override node has
`is_user_profile = False`. -/
theorem c10_profiles_lockstep (c : Collab) (fs : Fs)
    (kr : List (PPath × Layout)) (syncMode userCfg : Bool)
    (profilePath : Option PPath) (custom : PPath) (fuel : Nat) (out : LoadOut)
    (h : load_profiles c fs kr syncMode userCfg profilePath custom fuel =
      Except.ok out) :
    out.profiles.length = out.profilesComplex.length ∧
    (∀ i : Nat, out.profiles[i]? =
      (out.profilesComplex[i]?).map ProfileNode.location) ∧
    (∀ (i : Nat) (node : ProfileNode), i + 1 < out.profilesComplex.length →
      out.profilesComplex[i]? = some node → node.userConfig = false) := by
  cases profilePath with
  | none =>
    exact load_glue fs userCfg custom [] [] false out rfl
      (fun nd hnd => absurd hnd (List.not_mem_nil nd)) h
  | some pp =>
    rw [load_profiles_eq] at h
    cases har : addProfile c fs kr fuel (fs.realpath pp) [] with
    | ok r =>
      rw [har] at h
      have hlock := addProfile_lockstep c fs kr fuel (fs.realpath pp) [] r har
      exact load_glue fs userCfg custom r.profiles r.profilesComplex false out
        hlock.1 hlock.2 h
    | error e =>
      rw [har] at h
      cases e with
      | recursionLimit => cases h
      | unsupportedEapi a b =>
        exact load_glue fs userCfg custom [] [] (!syncMode) out rfl
          (fun nd hnd => absurd hnd (List.not_mem_nil nd)) h
      | emptyParentFile a =>
        exact load_glue fs userCfg custom [] [] (!syncMode) out rfl
          (fun nd hnd => absurd hnd (List.not_mem_nil nd)) h
      | parentNotFound a b =>
        exact load_glue fs userCfg custom [] [] (!syncMode) out rfl
          (fun nd hnd => absurd hnd (List.not_mem_nil nd)) h
      | missingParent a b =>
        exact load_glue fs userCfg custom [] [] (!syncMode) out rfl
          (fun nd hnd => absurd hnd (List.not_mem_nil nd)) h

/-- Witness for C10: in the two-node world with a user override directory,
the final stacks pair up position-wise and only the last (user) node is a
user profile. -/
theorem c10_witness :
    load_profiles collabBase fsC10 [] false true (some pChild) customProf 2 =
      Except.ok
        { profiles := [pBase, pChild, customProf]
        , profilesComplex :=
            [ { location := pBase, portage1Directories := true, userConfig := false
              , profileFormats := [], eapi := some "0", allowBuildId := false
              , showDeprecatedWarning := false }
            , { location := pChild, portage1Directories := true, userConfig := false
              , profileFormats := [], eapi := some "0", allowBuildId := false
              , showDeprecatedWarning := false }
            , userProfileNode fsC10 customProf ]
        , loggedParseError := false } ∧
    ([pBase, pChild, customProf].length =
      ([ { location := pBase, portage1Directories := true, userConfig := false
         , profileFormats := [], eapi := some "0", allowBuildId := false
         , showDeprecatedWarning := false }
       , { location := pChild, portage1Directories := true, userConfig := false
         , profileFormats := [], eapi := some "0", allowBuildId := false
         , showDeprecatedWarning := false }
       , userProfileNode fsC10 customProf ] : List ProfileNode).length) := by
  constructor
  · decide
  · exact (c10_profiles_lockstep collabBase fsC10 [] false true (some pChild)
      customProf 2
      { profiles := [pBase, pChild, customProf]
      , profilesComplex :=
          [ { location := pBase, portage1Directories := true, userConfig := false
            , profileFormats := [], eapi := some "0", allowBuildId := false
            , showDeprecatedWarning := false }
          , { location := pChild, portage1Directories := true, userConfig := false
            , profileFormats := [], eapi := some "0", allowBuildId := false
            , showDeprecatedWarning := false }
          , userProfileNode fsC10 customProf ]
      , loggedParseError := false } (by decide)).1

/-- Claim C3 (amended): every non-RecursionError `ParseError` from the
top-level resolution is caught by `load_profiles` in both sync and
non-sync contexts, substituting empty `profiles`/`profiles_complex`
stacks; only the diagnostic logging is suppressed in sync mode. -/
theorem c3_parse_error_caught (c : Collab) (fs : Fs)
    (kr : List (PPath × Layout)) (syncMode userCfg : Bool) (pp : PPath)
    (custom : PPath) (fuel : Nat) (e : PError)
    (he : addProfile c fs kr fuel (fs.realpath pp) [] = Except.error e)
    (hne : e ≠ PError.recursionLimit) :
    load_profiles c fs kr syncMode userCfg (some pp) custom fuel =
      Except.ok { profiles := [], profilesComplex := []
                , loggedParseError := !syncMode } := by
  cases e with
  | recursionLimit => exact absurd rfl hne
  | unsupportedEapi a b => simp [load_profiles, he]
  | emptyParentFile a => simp [load_profiles, he]
  | parentNotFound a b => simp [load_profiles, he]
  | missingParent a b => simp [load_profiles, he]

/-- Counterexample for C3 as stated: in sync mode (`portage._sync_mode`
true) a `ParseError` raised during resolution does not propagate — the
call still returns, substituting empty stacks, and merely skips the
diagnostics. -/
theorem c3_counterexample :
    addProfile collabBase fsC3 [] 2 (fsC3.realpath pC3) [] =
      Except.error (PError.emptyParentFile (parentsFileOf pC3)) ∧
    load_profiles collabBase fsC3 [] true true (some pC3) customProf 2 =
      Except.ok { profiles := [], profilesComplex := []
                , loggedParseError := false } := by decide

/-- Witness for C3 (amended): outside sync mode the same failure is caught
with the diagnostics logged. -/
theorem c3_witness :
    load_profiles collabBase fsC3 [] false true (some pC3) customProf 2 =
      Except.ok { profiles := [], profilesComplex := []
                , loggedParseError := true } :=
  c3_parse_error_caught collabBase fsC3 [] false true pC3 customProf 2
    (PError.emptyParentFile (parentsFileOf pC3)) (by decide) (by decide)

/-- Counterexample for C7 as stated: the reference `":/x"` has its colon at
position 0 and a current repository `/r`, yet `os.path.join` semantics make
the absolute subpath discard the `<repo>/profiles` anchor — the expansion
yields `/x`, not `/r/profiles/x`. -/
theorem c7_counterexample :
    expandParentColon collabBase (parentsFileOf pChild) ":/x" (some locR) =
      Except.ok { absolute := true, parts := ["x"] } ∧
    ({ absolute := true, parts := ["x"] } : PPath) ≠
      { absolute := true, parts := ["r", "profiles", "x"] } := by decide

/-- Claim C7 (amended): `_expand_parent_colon` returns a colon-free
reference unchanged (a relative path whenever the reference does not start
with a slash); a reference with the colon at position 0 expands through
`os.path.join(repo, "profiles", subpath)` — equal to
`<repo>/profiles/<subpath>` whenever the subpath is not itself absolute —
and raises `ParseError` when there is no current repository; a reference
`name:subpath` expands the same way through the looked-up location and
raises `ParseError` when the name is unknown. -/
theorem c7_colon_expansion (c : Collab) (pf : PPath) (repoLoc : Option PPath)
    (ref : String) :
    (findColon ref = none →
      expandParentColon c pf ref repoLoc = Except.ok (parsePath ref) ∧
      (startsWithSlash ref = false → (parsePath ref).absolute = false)) ∧
    (findColon ref = some 0 →
      (repoLoc = none → expandParentColon c pf ref repoLoc =
        Except.error (PError.parentNotFound ref pf)) ∧
      (∀ loc, repoLoc = some loc →
        expandParentColon c pf ref repoLoc =
          Except.ok ((osJoin3 loc "profiles" (ref.drop 1)).normalize) ∧
        ((parsePath (ref.drop 1)).absolute = false →
          osJoin3 loc "profiles" (ref.drop 1) =
            { absolute := loc.absolute
            , parts := loc.parts ++ "profiles" ::
                (parsePath (ref.drop 1)).parts }))) ∧
    (∀ k, findColon ref = some (k + 1) →
      (c.getLocationForName (ref.take (k + 1)) = none →
        expandParentColon c pf ref repoLoc =
          Except.error (PError.parentNotFound ref pf)) ∧
      (∀ loc, c.getLocationForName (ref.take (k + 1)) = some loc →
        expandParentColon c pf ref repoLoc =
          Except.ok ((osJoin3 loc "profiles" (ref.drop (k + 2))).normalize) ∧
        ((parsePath (ref.drop (k + 2))).absolute = false →
          osJoin3 loc "profiles" (ref.drop (k + 2)) =
            { absolute := loc.absolute
            , parts := loc.parts ++ "profiles" ::
                (parsePath (ref.drop (k + 2))).parts }))) := by
  refine ⟨?_, ?_, ?_⟩
  · intro hnone
    refine ⟨by simp [expandParentColon, hnone], ?_⟩
    intro hslash
    show startsWithSlash ref = false
    exact hslash
  · intro hzero
    constructor
    · intro hrl
      simp [expandParentColon, hzero, hrl]
    · intro loc hrl
      refine ⟨by simp [expandParentColon, hzero, hrl], ?_⟩
      intro habs
      rw [osJoin3]
      simp only [habs, Bool.false_eq_true, if_false]
  · intro k hk
    constructor
    · intro hname
      simp [expandParentColon, hk, hname]
    · intro loc hname
      refine ⟨by simp [expandParentColon, hk, hname], ?_⟩
      intro habs
      rw [osJoin3]
      simp only [habs, Bool.false_eq_true, if_false]

/-- Witness for C7 (amended): a colon-free reference is returned unchanged
and relative; `":foo/bar"` and `"other:foo"` expand below the respective
`profiles` directories; `":x"` with no repository and `"unknown:foo"` fail
with `ParseError`. -/
theorem c7_witness :
    expandParentColon collabBase (parentsFileOf pChild) "plain/ref" none =
      Except.ok (parsePath "plain/ref") ∧
    (parsePath "plain/ref").absolute = false ∧
    expandParentColon collabBase (parentsFileOf pChild) ":foo/bar" (some locR) =
      Except.ok ((osJoin3 locR "profiles" (":foo/bar".drop 1)).normalize) ∧
    osJoin3 locR "profiles" (":foo/bar".drop 1) =
      { absolute := locR.absolute
      , parts := locR.parts ++ "profiles" ::
          (parsePath (":foo/bar".drop 1)).parts } ∧
    expandParentColon collabBase (parentsFileOf pChild) ":x" none =
      Except.error (PError.parentNotFound ":x" (parentsFileOf pChild)) ∧
    expandParentColon collabBase (parentsFileOf pChild) "other:foo" none =
      Except.ok ((osJoin3 { absolute := true, parts := ["other"] } "profiles"
        ("other:foo".drop 6)).normalize) ∧
    expandParentColon collabBase (parentsFileOf pChild) "unknown:foo" none =
      Except.error (PError.parentNotFound "unknown:foo" (parentsFileOf pChild)) := by
  have h1 := (c7_colon_expansion collabBase (parentsFileOf pChild) none
    "plain/ref").1 (by decide)
  have h2 := ((c7_colon_expansion collabBase (parentsFileOf pChild) (some locR)
    ":foo/bar").2.1 (by decide)).2 locR rfl
  have h3 := ((c7_colon_expansion collabBase (parentsFileOf pChild) none
    ":x").2.1 (by decide)).1 rfl
  have h4 := ((c7_colon_expansion collabBase (parentsFileOf pChild) none
    "other:foo").2.2 4 (by decide)).2 { absolute := true, parts := ["other"] }
    (by decide)
  have h5 := ((c7_colon_expansion collabBase (parentsFileOf pChild) none
    "unknown:foo").2.2 6 (by decide)).1 (by decide)
  exact ⟨h1.1, h1.2 (by decide), h2.1, h2.2 (by decide), h3, h4.1, h5⟩

theorem leadsTo_refl : ∀ a : List String, leadsTo a a = true := by
  intro a
  induction a with
  | nil => rfl
  | cons x t ih => simp [leadsTo, ih]

theorem leadsTo_length : ∀ a b : List String, leadsTo a b = true →
    a.length ≤ b.length := by
  intro a
  induction a with
  | nil => intro b _; exact Nat.zero_le _
  | cons x t ih =>
    intro b h
    cases b with
    | nil => simp [leadsTo] at h
    | cons y s =>
      simp only [leadsTo, Bool.and_eq_true] at h
      exact Nat.succ_le_succ (ih s h.2)

theorem leadsTo_trans : ∀ a b c : List String, leadsTo a b = true →
    leadsTo b c = true → leadsTo a c = true := by
  intro a
  induction a with
  | nil => intro b c _ _; rfl
  | cons x t ih =>
    intro b c h1 h2
    cases b with
    | nil => simp [leadsTo] at h1
    | cons y s =>
      cases c with
      | nil => simp [leadsTo] at h2
      | cons z u =>
        simp only [leadsTo, Bool.and_eq_true, beq_iff_eq] at h1 h2 ⊢
        exact ⟨h1.1.trans h2.1, ih s u h1.2 h2.2⟩

theorem leadsTo_comparable : ∀ p a b : List String, leadsTo a p = true →
    leadsTo b p = true → leadsTo a b = true ∨ leadsTo b a = true := by
  intro p
  induction p with
  | nil =>
    intro a b ha _
    cases a with
    | nil => left; rfl
    | cons _ _ => simp [leadsTo] at ha
  | cons x q ih =>
    intro a b ha hb
    cases a with
    | nil => left; rfl
    | cons ya ta =>
      cases b with
      | nil => right; rfl
      | cons yb tb =>
        simp only [leadsTo, Bool.and_eq_true, beq_iff_eq] at ha hb
        rcases ih ta tb ha.2 hb.2 with h | h
        · left; simp [leadsTo, ha.1, hb.1, h]
        · right; simp [leadsTo, ha.1, hb.1, h]

theorem leadsTo_antisymm : ∀ a b : List String, leadsTo a b = true →
    b.length ≤ a.length → a = b := by
  intro a
  induction a with
  | nil =>
    intro b h hl
    cases b with
    | nil => rfl
    | cons y s => simp [leadsTo] at hl
  | cons x t ih =>
    intro b h hl
    cases b with
    | nil => simp [leadsTo] at h
    | cons y s =>
      simp only [leadsTo, Bool.and_eq_true, beq_iff_eq] at h
      simp only [List.length_cons] at hl
      rw [h.1, ih s h.2 (Nat.le_of_succ_le_succ hl)]

theorem leadsTo_of_le (a b p : List String) (ha : leadsTo a p = true)
    (hb : leadsTo b p = true) (hl : a.length ≤ b.length) :
    leadsTo a b = true := by
  rcases leadsTo_comparable p a b ha hb with h | h
  · exact h
  · rw [leadsTo_antisymm b a h hl]
    exact leadsTo_refl a

theorem intersecting_eq_of_same_attribution (kr : List (PPath × Layout))
    (p1 p2 : PPath) (r1 r2 : PPath × Layout)
    (h1 : attributeRepo kr p1 = some r1) (h2 : attributeRepo kr p2 = some r2)
    (hloc : r1.1 = r2.1) :
    intersectingRepos kr p1 = intersectingRepos kr p2 := by
  rw [attributeRepo] at h1 h2
  obtain ⟨hm1, hmax1⟩ := maxByLoc_spec _ r1 h1
  obtain ⟨hm2, hmax2⟩ := maxByLoc_spec _ r2 h2
  have hf1 := List.mem_filter.mp hm1
  have hf2 := List.mem_filter.mp hm2
  have hrel1 : isRelativeTo p1 r1.1 = true := by simpa using hf1.2
  have hrel2 : isRelativeTo p2 r2.1 = true := by simpa using hf2.2
  have dir : ∀ (pa pb : PPath) (ra rb : PPath × Layout),
      isRelativeTo pa ra.1 = true →
      (∀ z ∈ intersectingRepos kr pa, z.1.parts.length ≤ ra.1.parts.length) →
      isRelativeTo pb rb.1 = true → ra.1 = rb.1 →
      ∀ x ∈ kr, isRelativeTo pa x.1 = true → isRelativeTo pb x.1 = true := by
    intro pa pb ra rb hrela hmaxa hrelb hab x hx hrelx
    have hmx : x.1.parts.length ≤ ra.1.parts.length :=
      hmaxa x (List.mem_filter.mpr ⟨hx, by simp [hrelx]⟩)
    simp only [isRelativeTo, Bool.and_eq_true, beq_iff_eq] at hrela hrelb hrelx ⊢
    constructor
    · rw [hrelb.1, ← hab, ← hrela.1, hrelx.1]
    · have hxa : leadsTo x.1.parts ra.1.parts =  true :=
        leadsTo_of_le x.1.parts ra.1.parts pa.parts hrelx.2 hrela.2 hmx
      rw [hab] at hxa
      exact leadsTo_trans x.1.parts rb.1.parts pb.parts hxa hrelb.2
  apply List.filter_congr
  intro x hx
  cases hb1 : isRelativeTo p1 x.1 with
  | true =>
    rw [dir p1 p2 r1 r2 hrel1 hmax1 hrel2 hloc x hx hb1]
  | false =>
    cases hb2 : isRelativeTo p2 x.1 with
    | false => rfl
    | true =>
      rw [dir p2 p1 r2 r1 hrel2 hmax2 hrel1 hloc.symm x hx hb2] at hb1
      cases hb1

theorem processParents_stripAdv_congr (c : Collab) (cwd : PPath)
    (pathEx : PPath → Bool)
    (child child2 : PPath → List (PPath × Layout) → Except PError Resolved)
    (cp pf : PPath) (rl : Option PPath) (ac : Bool)
    (inter : List (PPath × Layout))
    (hchild : ∀ q, stripAdv (child2 q inter) = stripAdv (child q inter)) :
    ∀ refs, stripAdv (processParents c cwd pathEx child2 cp pf rl ac inter refs) =
      stripAdv (processParents c cwd pathEx child cp pf rl ac inter refs) := by
  intro refs
  induction refs with
  | nil => rfl
  | cons ref rest ihr =>
    simp only [processParents]
    cases hr : resolveParentRef c cwd cp pf rl ac ref with
    | error e => rfl
    | ok pp =>
      cases hex : pathEx pp with
      | false => simp [hex]
      | true =>
        simp only [hex, if_true]
        have hc := hchild pp
        cases hc2 : child2 pp inter with
        | error e2 =>
          cases hc1 : child pp inter with
          | error e1 =>
            rw [hc1, hc2] at hc
            cases hc
            rfl
          | ok sub1 =>
            rw [hc1, hc2] at hc
            cases hc
        | ok sub2 =>
          cases hc1 : child pp inter with
          | error e1 =>
            rw [hc1, hc2] at hc
            cases hc
          | ok sub1 =>
            rw [hc1, hc2] at hc
            have hps : sub2.profiles = sub1.profiles ∧
                sub2.profilesComplex = sub1.profilesComplex := by
              simpa only [stripAdv, Except.map, Except.ok.injEq,
                Prod.mk.injEq] using hc
            cases hrec2 : processParents c cwd pathEx child2 cp pf rl ac inter rest with
            | error e2 =>
              cases hrec1 : processParents c cwd pathEx child cp pf rl ac inter rest with
              | error e1 =>
                rw [hrec1, hrec2] at ihr
                cases ihr
                rfl
              | ok rres1 =>
                rw [hrec1, hrec2] at ihr
                cases ihr
            | ok rres2 =>
              cases hrec1 : processParents c cwd pathEx child cp pf rl ac inter rest with
              | error e1 =>
                rw [hrec1, hrec2] at ihr
                cases ihr
              | ok rres1 =>
                rw [hrec1, hrec2] at ihr
                simp only [stripAdv, Except.map, Except.ok.injEq, Prod.mk.injEq] at ihr ⊢
                exact ⟨by rw [hps.1, ihr.1], by rw [hps.2, ihr.2]⟩

theorem resolveEapi_listdir_indep (c : Collab) (fs : Fs)
    (l : PPath → List String) (d : PPath → Bool) (p : PPath)
    (rd : Option String) :
    resolveEapi c { fs with listdir := l, isDir := d } p rd =
      resolveEapi c fs p rd := rfl

theorem addProfile_stacks_indep_advisory_inputs (c : Collab) (fs : Fs)
    (kr : List (PPath × Layout)) (l : PPath → List String) (d : PPath → Bool) :
    ∀ (n : Nat) (p : PPath) (prev : List (PPath × Layout)),
      stripAdv (addProfile c { fs with listdir := l, isDir := d } kr n p prev) =
      stripAdv (addProfile c fs kr n p prev) := by
  intro n
  induction n with
  | zero => intro p prev; rfl
  | succ n ih =>
    intro p prev
    rw [addProfile_succ, addProfile_succ]
    simp only [addProfileCore]
    rw [resolveEapi_listdir_indep]
    cases hre : resolveEapi c fs p
        (defaultEapiOf (maxByLoc (intersectingRepos kr (fs.realpath p)))) with
    | error e => rfl
    | ok eapi =>
      cases hpl : fs.parentLines p with
      | none => rfl
      | some parents =>
        cases parents with
        | nil => rfl
        | cons ref rest =>
          simp only [parentsStep]
          have hcongr := processParents_stripAdv_congr c fs.cwd fs.pathExists
            (addProfile c fs kr n)
            (addProfile c { fs with listdir := l, isDir := d } kr n)
            p (parentsFileOf p)
            (Option.map Prod.fst (maxByLoc (intersectingRepos kr (fs.realpath p))))
            (allowParentColonOf (maxByLoc (intersectingRepos kr (fs.realpath p))))
            (intersectingRepos kr (fs.realpath p))
            (fun q => ih q (intersectingRepos kr (fs.realpath p)))
            (ref :: rest)
          cases hpr2 : processParents c fs.cwd fs.pathExists
              (addProfile c { fs with listdir := l, isDir := d } kr n) p
              (parentsFileOf p)
              (Option.map Prod.fst (maxByLoc (intersectingRepos kr (fs.realpath p))))
              (allowParentColonOf (maxByLoc (intersectingRepos kr (fs.realpath p))))
              (intersectingRepos kr (fs.realpath p)) (ref :: rest) with
          | error e2 =>
            cases hpr1 : processParents c fs.cwd fs.pathExists
                (addProfile c fs kr n) p (parentsFileOf p)
                (Option.map Prod.fst (maxByLoc (intersectingRepos kr (fs.realpath p))))
                (allowParentColonOf (maxByLoc (intersectingRepos kr (fs.realpath p))))
                (intersectingRepos kr (fs.realpath p)) (ref :: rest) with
            | error e1 =>
              rw [hpr1, hpr2] at hcongr
              cases hcongr
              rfl
            | ok pres1 =>
              rw [hpr1, hpr2] at hcongr
              cases hcongr
          | ok pres2 =>
            cases hpr1 : processParents c fs.cwd fs.pathExists
                (addProfile c fs kr n) p (parentsFileOf p)
                (Option.map Prod.fst (maxByLoc (intersectingRepos kr (fs.realpath p))))
                (allowParentColonOf (maxByLoc (intersectingRepos kr (fs.realpath p))))
                (intersectingRepos kr (fs.realpath p)) (ref :: rest) with
            | error e1 =>
              rw [hpr1, hpr2] at hcongr
              cases hcongr
            | ok pres1 =>
              rw [hpr1, hpr2] at hcongr
              have hps : pres2.profiles = pres1.profiles ∧
                  pres2.profilesComplex = pres1.profilesComplex := by
                simpa only [stripAdv, Except.map, Except.ok.injEq,
                  Prod.mk.injEq] using hcongr
              simp only [stripAdv, Except.map, Except.ok.injEq, Prod.mk.injEq]
              exact ⟨by rw [hps.1], by rw [hps.2]⟩

theorem addProfile_advisory_emitted (c : Collab) (fs : Fs)
    (kr : List (PPath × Layout)) (n : Nat) (p : PPath)
    (prev : List (PPath × Layout)) (res : Resolved) (eapi : String)
    (h : addProfile c fs kr (n + 1) p prev = Except.ok res)
    (he : resolveEapi c fs p (defaultEapiOf (attributeRepo kr (fs.realpath p))) =
      Except.ok eapi)
    (hcm : compatModeOf c (attributeRepo kr (fs.realpath p)) eapi = true)
    (hof : offendersOf fs p ≠ []) :
    (p, offendersOf fs p) ∈ res.advisories := by
  rw [addProfile_succ] at h
  obtain ⟨eapi2, pres, he2, hmid, hres⟩ := addProfileCore_ok c fs kr _ p prev res h
  rw [he] at he2
  cases he2
  rw [hres]
  show (p, offendersOf fs p) ∈
    (if compatModeOf c (attributeRepo kr (fs.realpath p)) eapi &&
        !(offendersOf fs p).isEmpty
      then [(p, offendersOf fs p)] else []) ++ pres.advisories
  have hoe : (offendersOf fs p).isEmpty = false := by
    cases hoo : offendersOf fs p with
    | nil => exact absurd hoo hof
    | cons a t => rfl
  rw [if_pos (by rw [hcm, hoe]; rfl)]
  exact List.mem_append_left _ (List.mem_singleton_self _)

/-- Claim C5 (amended): in a compat-mode node the legacy-layout advisory
is emitted whenever legacy directory entries are present — regardless of
the node's `show_deprecated_warning`, which is only recorded on the node;
two consecutive nodes attributed to the same repository give the second
node `show_deprecated_warning = false`; and the advisory inputs (directory
listing and directory test) never influence the resolved stacks or the
error outcome, so emitting the advisory never fails resolution. -/
theorem c5_legacy_advisory (c : Collab) (fs : Fs) (kr : List (PPath × Layout))
    (n : Nat) (p p1 p2 : PPath) (prev : List (PPath × Layout)) (res : Resolved)
    (eapi : String) (r1 r2 : PPath × Layout)
    (l : PPath → List String) (d : PPath → Bool) :
    (addProfile c fs kr (n + 1) p prev = Except.ok res →
      resolveEapi c fs p (defaultEapiOf (attributeRepo kr (fs.realpath p))) =
        Except.ok eapi →
      compatModeOf c (attributeRepo kr (fs.realpath p)) eapi = true →
      offendersOf fs p ≠ [] →
      (p, offendersOf fs p) ∈ res.advisories) ∧
    (attributeRepo kr (fs.realpath p1) = some r1 →
      attributeRepo kr (fs.realpath p2) = some r2 →
      r1.1 = r2.1 →
      showDeprecatedOf (intersectingRepos kr (fs.realpath p1))
        (intersectingRepos kr (fs.realpath p2)) = false) ∧
    stripAdv (addProfile c { fs with listdir := l, isDir := d } kr n p prev) =
      stripAdv (addProfile c fs kr n p prev) := by
  refine ⟨?_, ?_, ?_⟩
  · intro h he hcm hof
    exact addProfile_advisory_emitted c fs kr n p prev res eapi h he hcm hof
  · intro h1 h2 hloc
    rw [showDeprecatedOf,
      intersecting_eq_of_same_attribution kr (fs.realpath p1) (fs.realpath p2)
        r1 r2 h1 h2 hloc]
    simp
  · exact addProfile_stacks_indep_advisory_inputs c fs kr l d n p prev

/-- Counterexample for C5 as stated: visiting `/r/profiles/a` (which lists
`../b`) in the compat repository `/r`, the node for `/r/profiles/b` has
`show_deprecated_warning = false` (same repository as the previous node),
yet its legacy-layout advisory for the `use.mask` directory is emitted —
the advisory is not gated by `show_deprecated_warning`. -/
theorem c5_counterexample :
    addProfile collabBase fsC5 krC5 2 pA5 [] = Except.ok
      { profiles := [pB5, pA5]
      , profilesComplex :=
          [ { location := pB5, portage1Directories := true, userConfig := false
            , profileFormats := ["portage-1-compat"], eapi := some "0"
            , allowBuildId := false, showDeprecatedWarning := false }
          , { location := pA5, portage1Directories := true, userConfig := false
            , profileFormats := ["portage-1-compat"], eapi := some "0"
            , allowBuildId := false, showDeprecatedWarning := true } ]
      , advisories := [(pB5, ["use.mask"])] } ∧
    ({ location := pB5, portage1Directories := true, userConfig := false
     , profileFormats := ["portage-1-compat"], eapi := some "0"
     , allowBuildId := false
     , showDeprecatedWarning := false } : ProfileNode).showDeprecatedWarning
      = false := by decide

/-- Witness for C5 (amended): the advisory of `/r/profiles/b` is in the
emitted set, the second same-repository node suppresses
`show_deprecated_warning`, and blanking the directory listing changes
neither stacks nor outcome. -/
theorem c5_witness :
    ((pB5, offendersOf fsC5 pB5) ∈
      ({ profiles := [pB5]
       , profilesComplex :=
           [ { location := pB5, portage1Directories := true, userConfig := false
             , profileFormats := ["portage-1-compat"], eapi := some "0"
             , allowBuildId := false, showDeprecatedWarning := true } ]
       , advisories := [(pB5, ["use.mask"])] } : Resolved).advisories) ∧
    showDeprecatedOf (intersectingRepos krC5 (fsC5.realpath pA5))
      (intersectingRepos krC5 (fsC5.realpath pB5)) = false ∧
    stripAdv (addProfile collabBase
        { fsC5 with listdir := fun _ => [], isDir := fun _ => false }
        krC5 2 pA5 []) =
      stripAdv (addProfile collabBase fsC5 krC5 2 pA5 []) := by
  refine ⟨?_, ?_, ?_⟩
  · exact (c5_legacy_advisory collabBase fsC5 krC5 0 pB5 pA5 pB5 []
      { profiles := [pB5]
      , profilesComplex :=
          [ { location := pB5, portage1Directories := true, userConfig := false
            , profileFormats := ["portage-1-compat"], eapi := some "0"
            , allowBuildId := false, showDeprecatedWarning := true } ]
      , advisories := [(pB5, ["use.mask"])] } "0" (locR, layCompat)
      (locR, layCompat) (fun _ => []) (fun _ => false)).1
      (by decide) (by decide) (by decide) (by decide)
  · exact (c5_legacy_advisory collabBase fsC5 krC5 0 pB5 pA5 pB5 []
      Resolved.empty "0" (locR, layCompat) (locR, layCompat)
      (fun _ => []) (fun _ => false)).2.1 (by decide) (by decide) rfl
  · exact (c5_legacy_advisory collabBase fsC5 krC5 2 pA5 pA5 pB5 []
      Resolved.empty "0" (locR, layCompat) (locR, layCompat)
      (fun _ => []) (fun _ => false)).2.2

end Portage
